import Mathlib

/-!
A shallow embedding of the article-lifecycle, taxonomy-association and
relevance-engine core of the `simple-cms` repository, together with
theorems settling the specification claims about it.

Strings are modelled as `List Char`; timestamps and identifiers as `Nat`;
SQL tables as Lean lists; the JavaScript floating-point scores as `ℚ`.
Fallible operations return `Except`.
-/

namespace SimpleCMS

abbrev Str := List Char
abbrev Ident := Nat
abbrev Time := Nat

/-- Article status enumeration (`'draft' | 'published' | 'archived'` in
`src/models/Article.ts`). -/
inductive Status
  | draft
  | published
  | archived
deriving DecidableEq

/-- One row of the `articles` table
(columns of `004_create_articles_table.sql` used by the repository). -/
structure ArticleRow where
  id : Ident
  title : Str
  content : Str
  excerpt : Str
  authorId : Ident
  status : Status
  createdAt : Time
  updatedAt : Time
  publishedAt : Option Time
deriving DecidableEq

/-- The hydrated `Article` record returned to callers: the row plus the
association id sets fetched by `getArticleCategoryIds` / `getArticleTagIds`. -/
structure Article extends ArticleRow where
  categoryIds : List Ident
  tagIds : List Ident
deriving DecidableEq

/-- One row of the `tags` table (only the fields the claims need). -/
structure TagRow where
  id : Ident
  usageCount : Int
deriving DecidableEq

/-- The persisted state: `articles`, the two junction tables
(`article_categories`, `article_tags` — pairs `(articleId, categoryId|tagId)`)
and `tags`. -/
structure DBState where
  articles : List ArticleRow
  articleCats : List (Ident × Ident)
  articleTags : List (Ident × Ident)
  tags : List TagRow
deriving DecidableEq

/-! ### String helpers (JavaScript `trim` / truthiness of `s.trim()`) -/

/-- Whitespace as relevant to the repository's inputs. -/
def isWs (c : Char) : Bool :=
  c == ' ' || c == '\t' || c == '\n' || c == '\r'

/-- Embeds `!s.trim()` in JavaScript: the string is empty or whitespace-only. -/
def isBlank (s : Str) : Bool := s.all isWs

/-! ### Read queries (`ArticleRepository` helper methods) -/

/-- Embeds `getArticleCategoryIds`: `SELECT category_id FROM article_categories WHERE article_id = $1`. -/
def getArticleCategoryIds (db : DBState) (articleId : Ident) : List Ident :=
  (db.articleCats.filter (fun p => p.1 == articleId)).map (fun p => p.2)

/-- Embeds `getArticleTagIds`: `SELECT tag_id FROM article_tags WHERE article_id = $1`. -/
def getArticleTagIds (db : DBState) (articleId : Ident) : List Ident :=
  (db.articleTags.filter (fun p => p.1 == articleId)).map (fun p => p.2)

/-- Embeds `SELECT ... FROM articles WHERE id = $1` (first matching row). -/
def findRow (db : DBState) (id : Ident) : Option ArticleRow :=
  db.articles.find? (fun r => r.id == id)

/-- Hydrate a row into an `Article` with its association id sets. -/
def hydrate (db : DBState) (r : ArticleRow) : Article :=
  { toArticleRow := r
    categoryIds := getArticleCategoryIds db r.id
    tagIds := getArticleTagIds db r.id }

/-- Embeds `ArticleRepository.findById`. -/
def findById (db : DBState) (id : Ident) : Option Article :=
  (findRow db id).map (hydrate db)

/-! ### Mutation requests (`src/models/Article.ts`) -/

/-- Embeds `UpdateArticleRequest`: all fields optional; `clearPublishedAt` is a
truthiness-tested optional boolean, modelled as `Bool`. -/
structure UpdateArticleRequest where
  title : Option Str := none
  content : Option Str := none
  excerpt : Option Str := none
  status : Option Status := none
  categoryIds : Option (List Ident) := none
  tagIds : Option (List Ident) := none
  clearPublishedAt : Bool := false

/-- Embeds `CreateArticleRequest`; the optional association arrays are modelled as
lists (`[]` for absent), since the source guards them with
`xs && xs.length > 0`. -/
structure CreateArticleRequest where
  title : Str
  content : Str
  excerpt : Option Str := none
  status : Option Status := none
  categoryIds : List Ident := []
  tagIds : List Ident := []

/-! ### Tag usage-count triggers (`update_tag_usage_count` in the migration)

Inserting a row into `article_tags` fires an `AFTER INSERT` trigger that
increments the referenced tag's `usage_count`; deleting fires an
`AFTER DELETE` trigger that decrements it, once per deleted row. -/

/-- Apply the usage-count trigger delta `d` to the tag with id `tid`. -/
def bumpUsage (tags : List TagRow) (tid : Ident) (d : Int) : List TagRow :=
  tags.map (fun t => if t.id == tid then { t with usageCount := t.usageCount + d } else t)

/-- Insert one `article_tags` row; the insert trigger increments the tag's
usage count in the same transaction. -/
def insertArticleTag (db : DBState) (aid tid : Ident) : DBState :=
  { db with
    articleTags := db.articleTags ++ [(aid, tid)]
    tags := bumpUsage db.tags tid 1 }

/-- Embeds `associateTags`: bulk-insert `(articleId, tagId)` rows; each inserted row
fires the increment trigger. -/
def insertArticleTags (db : DBState) (aid : Ident) (tids : List Ident) : DBState :=
  tids.foldl (fun d tid => insertArticleTag d aid tid) db

/-- Embeds `DELETE FROM article_tags WHERE article_id = $1`; the delete trigger
decrements the usage count of each removed row's tag. -/
def deleteArticleTags (db : DBState) (aid : Ident) : DBState :=
  let removed := db.articleTags.filter (fun p => p.1 == aid)
  { db with
    articleTags := db.articleTags.filter (fun p => p.1 != aid)
    tags := removed.foldl (fun ts p => bumpUsage ts p.2 (-1)) db.tags }

/-- Embeds `updateTagAssociations`: delete all existing rows for the article, then
bulk-insert the new set (replace semantics). -/
def updateTagAssociations (db : DBState) (aid : Ident) (tids : List Ident) : DBState :=
  insertArticleTags (deleteArticleTags db aid) aid tids

/-- Embeds `associateCategories`: bulk-insert `(articleId, categoryId)` rows. -/
def insertArticleCats (db : DBState) (aid : Ident) (cids : List Ident) : DBState :=
  { db with articleCats := db.articleCats ++ cids.map (fun c => (aid, c)) }

/-- Embeds `DELETE FROM article_categories WHERE article_id = $1`. -/
def deleteArticleCats (db : DBState) (aid : Ident) : DBState :=
  { db with articleCats := db.articleCats.filter (fun p => p.1 != aid) }

/-- Embeds `updateCategoryAssociations`: delete-then-insert replace semantics. -/
def updateCategoryAssociations (db : DBState) (aid : Ident) (cids : List Ident) : DBState :=
  insertArticleCats (deleteArticleCats db aid) aid cids

/-! ### `ArticleRepository.update` -/

/-- Whether the dynamically built `SET` clause of `ArticleRepository.update`
is non-empty (the row `UPDATE` statement is issued only in that case). -/
def anyRowField (u : UpdateArticleRequest) : Bool :=
  u.title.isSome || u.content.isSome || u.excerpt.isSome || u.status.isSome

/-- Net effect of the `UPDATE articles SET ...` statement on the matched row:
supplied fields are overwritten; when the new status is `published`,
`published_at = COALESCE(published_at, CURRENT_TIMESTAMP)`; when it is
`draft` or `archived`, `published_at` is set to `NULL` only if
`clearPublishedAt` was passed; `updated_at = CURRENT_TIMESTAMP`. -/
def applyRowUpdate (now : Time) (u : UpdateArticleRequest) (r : ArticleRow) : ArticleRow :=
  { r with
    title := u.title.getD r.title
    content := u.content.getD r.content
    excerpt := u.excerpt.getD r.excerpt
    status := u.status.getD r.status
    publishedAt :=
      match u.status with
      | some .published => some (r.publishedAt.getD now)
      | some _ => if u.clearPublishedAt then none else r.publishedAt
      | none => r.publishedAt
    updatedAt := now }

/-- The row `UPDATE` statement of `ArticleRepository.update`
(`UPDATE articles SET ... WHERE id = $n`). -/
def rowUpdateStmt (now : Time) (id : Ident) (u : UpdateArticleRequest) (db : DBState) : DBState :=
  { db with articles := db.articles.map (fun r => if r.id == id then applyRowUpdate now u r else r) }

/-- The association statements of `ArticleRepository.update`: the category
replace (delete, then insert when non-empty) when `categoryIds` is supplied,
then the tag replace likewise when `tagIds` is supplied. -/
def updateAssocStmts (id : Ident) (u : UpdateArticleRequest) : List (DBState → DBState) :=
  (match u.categoryIds with
   | some cids =>
     [fun db => deleteArticleCats db id]
       ++ (if cids.isEmpty then [] else [fun db => insertArticleCats db id cids])
   | none => [])
    ++ (match u.tagIds with
        | some tids =>
          [fun db => deleteArticleTags db id]
            ++ (if tids.isEmpty then [] else [fun db => insertArticleTags db id tids])
        | none => [])

/-- The ordered list of statements `ArticleRepository.update` executes inside
its transaction: the row update (only when some row field is supplied), then
the association statements. -/
def updateStmts (now : Time) (id : Ident) (u : UpdateArticleRequest) : List (DBState → DBState) :=
  (if anyRowField u then [rowUpdateStmt now id u] else []) ++ updateAssocStmts id u

/-- Embeds `ArticleRepository.update`, successful-transaction path: run the
statements, commit, then `findById` the updated article. -/
def repoUpdate (now : Time) (id : Ident) (u : UpdateArticleRequest) (db : DBState) :
    DBState × Option Article :=
  let db' := (updateStmts now id u).foldl (fun s f => f s) db
  (db', findById db' id)

/-! ### `ArticleRepository.create` and `.delete` statement lists -/

/-- The `INSERT INTO articles ...` statement of `ArticleRepository.create`:
`published_at` is stamped iff the requested status is `published`; absent
status defaults to `draft`. -/
def insertArticleRowStmt (d : CreateArticleRequest) (authorId freshId : Ident) (now : Time)
    (db : DBState) : DBState :=
  { db with
    articles := db.articles ++
      [{ id := freshId
         title := d.title
         content := d.content
         excerpt := d.excerpt.getD []
         authorId := authorId
         status := d.status.getD .draft
         createdAt := now
         updatedAt := now
         publishedAt := if d.status == some .published then some now else none }] }

/-- Statements of `ArticleRepository.create` inside its transaction. -/
def createStmts (d : CreateArticleRequest) (authorId freshId : Ident) (now : Time) :
    List (DBState → DBState) :=
  [insertArticleRowStmt d authorId freshId now]
    ++ (if d.categoryIds.isEmpty then [] else [fun db => insertArticleCats db freshId d.categoryIds])
    ++ (if d.tagIds.isEmpty then [] else [fun db => insertArticleTags db freshId d.tagIds])

/-- Statements of `ArticleRepository.delete` inside its transaction:
remove category associations, remove tag associations, delete the row. -/
def deleteStmts (id : Ident) : List (DBState → DBState) :=
  [fun db => deleteArticleCats db id,
   fun db => deleteArticleTags db id,
   fun db => { db with articles := db.articles.filter (fun r => r.id != id) }]

/-! ### Service layer (`ArticleService`) -/

/-- The distinct error conditions `ArticleService` raises (one constructor per
`throw` site relevant to the claims), plus the empty-search-query error of
`PostgresSearchService`. -/
inductive SvcError
  | articleNotFound
  | alreadyPublished
  | publishNoTitle
  | publishNoContent
  | notPublished
  | titleTooLong
  | contentTooLong
  | updateFailed
  | emptyQuery
deriving DecidableEq

/-- The spec's error taxonomy (§7). -/
inductive ErrKind
  | notFound
  | conflict
  | validationFailed
  | other
deriving DecidableEq

/-- Kind classification of the service errors, following §7 of the spec
("already in target state" is `Conflict`, "missing required field for
publish" is `ValidationFailed`). -/
def SvcError.kind : SvcError → ErrKind
  | .articleNotFound => .notFound
  | .alreadyPublished => .conflict
  | .publishNoTitle => .validationFailed
  | .publishNoContent => .validationFailed
  | .notPublished => .conflict
  | .titleTooLong => .validationFailed
  | .contentTooLong => .validationFailed
  | .updateFailed => .other
  | .emptyQuery => .validationFailed

/-- Embeds `ArticleService.publish`: not-found check, already-published check,
non-blank title and content checks, then
`articleRepository.update(id, { status: 'published' })`. -/
def publish (now : Time) (db : DBState) (id : Ident) : Except SvcError (DBState × Article) :=
  match findById db id with
  | none => .error .articleNotFound
  | some a =>
    if a.status = .published then .error .alreadyPublished
    else if isBlank a.title then .error .publishNoTitle
    else if isBlank a.content then .error .publishNoContent
    else
      let p := repoUpdate now id { status := some .published } db
      match p.2 with
      | some a' => .ok (p.1, a')
      | none => .error .updateFailed

/-- Embeds `ArticleService.unpublish`: not-found check, must currently be
`published`, then `articleRepository.update(id, { status: 'draft' })`
(no `clearPublishedAt` flag is passed). -/
def unpublish (now : Time) (db : DBState) (id : Ident) : Except SvcError (DBState × Article) :=
  match findById db id with
  | none => .error .articleNotFound
  | some a =>
    if a.status ≠ .published then .error .notPublished
    else
      let p := repoUpdate now id { status := some .draft } db
      match p.2 with
      | some a' => .ok (p.1, a')
      | none => .error .updateFailed

/-- Embeds `ArticleService.saveDraft`: not-found check, force
`status := 'draft'` over the caller's patch, length-only validation
(title ≤ 1000, content ≤ 100000 — empty is allowed), then repository update. -/
def saveDraft (now : Time) (db : DBState) (id : Ident) (u : UpdateArticleRequest) :
    Except SvcError (DBState × Article) :=
  match findById db id with
  | none => .error .articleNotFound
  | some _ =>
    let du : UpdateArticleRequest := { u with status := some .draft }
    if (match du.title with | some t => decide (1000 < t.length) | none => false) then
      .error .titleTooLong
    else if (match du.content with | some c => decide (100000 < c.length) | none => false) then
      .error .contentTooLong
    else
      let p := repoUpdate now id du db
      match p.2 with
      | some a' => .ok (p.1, a')
      | none => .error .updateFailed

/-! ### `PublicArticleRepository.findRelatedArticles` -/

/-- The `match_score` of the related-articles CTE for candidate article
`aid`: the number of its `article_categories` rows whose category is among
the source's categories, plus the number of its `article_tags` rows whose
tag is among the source's tags. -/
def matchScore (db : DBState) (cats tags : List Ident) (aid : Ident) : Nat :=
  (db.articleCats.filter (fun p => p.1 == aid && cats.contains p.2)).length
    + (db.articleTags.filter (fun p => p.1 == aid && tags.contains p.2)).length

/-- Sort key for `ORDER BY am.match_score DESC, a.published_at DESC`:
score, then a flag placing `NULL` publish times first (PostgreSQL `DESC`
default), then the publish time — all compared descending. -/
def relKey (db : DBState) (cats tags : List Ident) (r : ArticleRow) : Nat × Nat × Nat :=
  (matchScore db cats tags r.id,
   match r.publishedAt with | none => 1 | some _ => 0,
   match r.publishedAt with | none => 0 | some t => t)

/-- Lexicographic `≤` on the triple sort key. -/
def lex3LE : Nat × Nat × Nat → Nat × Nat × Nat → Bool
  | (a1, a2, a3), (b1, b2, b3) =>
    a1 < b1 || (a1 == b1 && (a2 < b2 || (a2 == b2 && a3 ≤ b3)))

/-- Whether `x` may come before `y` under
`ORDER BY match_score DESC, published_at DESC`. -/
def relOrder (db : DBState) (cats tags : List Ident) (x y : ArticleRow) : Prop :=
  lex3LE (relKey db cats tags y) (relKey db cats tags x) = true

instance (db : DBState) (cats tags : List Ident) : DecidableRel (relOrder db cats tags) :=
  fun _ _ => instDecidableEqBool _ _

/-- Whether `x` may come before `y` under the fallback `ORDER BY published_at DESC`. -/
def recentOrder (x y : ArticleRow) : Prop :=
  lex3LE (relKey ⟨[], [], [], []⟩ [] [] y) (relKey ⟨[], [], [], []⟩ [] [] x) = true

instance : DecidableRel recentOrder := fun _ _ => instDecidableEqBool _ _

/-- Embeds `PublicArticleRepository.findRelatedArticles`: resolve the source
article; if absent or not `published`, return `[]`; if it has no categories
and no tags, fall back to the most recent published other articles; else
score every other published article, keep positive scores, order by score
then publish time descending, and cap at `limit`. -/
def findRelatedArticles (db : DBState) (articleId : Ident) (limit : Nat) : List Article :=
  match findById db articleId with
  | none => []
  | some a =>
    if a.status ≠ .published then []
    else
      let cats := a.categoryIds
      let tags := a.tagIds
      let cands := db.articles.filter (fun r => r.status == .published && r.id != articleId)
      if cats.isEmpty && tags.isEmpty then
        ((cands.insertionSort recentOrder).take limit).map (hydrate db)
      else
        let kept := cands.filter (fun r => decide (0 < matchScore db cats tags r.id))
        ((kept.insertionSort (relOrder db cats tags)).take limit).map (hydrate db)

/-! ### Search utilities (`src/utils/search.ts`) -/

/-- Embeds `text.toLowerCase()`. -/
def toLowerStr (s : Str) : Str := s.map Char.toLower

/-- Embeds `text.indexOf(sub)`: index of the first occurrence of `sub` in `text`,
or `none` (`-1` in JavaScript). -/
def firstIdx (sub : Str) : Str → Option Nat
  | [] => if sub.isEmpty then some 0 else none
  | c :: tl =>
    if sub.isPrefixOf (c :: tl) then some 0
    else (firstIdx sub tl).map (· + 1)

/-- The pattern string the source interpolates — without escaping — into the
regex constructor: `` `\b${lowerTerm}\b` ``. -/
def boundaryPattern (term : Str) : Str := '\\' :: 'b' :: (term ++ ['\\', 'b'])

/-- The JavaScript `RegExp` engine as an external collaborator:
`rex pattern text` models `new RegExp(pattern, 'i').test(text)`.  The result
is `.error ()` when the constructor throws a `SyntaxError`, which the real
engine does whenever the interpolated term makes the pattern syntactically
invalid (for example `\b(\b` or `\b*\b`). -/
abbrev RegexEngine := Str → Str → Except Unit Bool

/-- Per-term contribution of `calculateRelevance`: `0.5` base credit when the
(lower-cased) term occurs in the (lower-cased) text, plus
`max(0, 1 - position/length) * 0.3` for how early it first occurs, plus
`0.2` when `new RegExp('\b' + lowerTerm + '\b', 'i')` — built from the raw,
unescaped term — reports a word-boundary match.  An engine fault
(`SyntaxError` from the constructor) propagates as the thrown exception. -/
def termScore (rex : RegexEngine) (lowerText : Str) (term : Str) : Except Unit ℚ :=
  let lowerTerm := toLowerStr term
  match firstIdx lowerTerm lowerText with
  | none => .ok 0
  | some pos => do
    let b ← rex (boundaryPattern lowerTerm) lowerText
    pure ((1 / 2 : ℚ)
      + max 0 (1 - (pos : ℚ) / (lowerText.length : ℚ)) * (3 / 10)
      + (if b then (1 / 5 : ℚ) else 0))

/-- Embeds `calculateRelevance(text, searchTerms)` with the `RegExp` engine
explicit: `0` when the text is empty or no terms are given; otherwise the
per-term scores are accumulated — an exception thrown for any term escapes
the `forEach` and aborts the whole call — then divided by the term count and
clamped to `1`. -/
def calculateRelevance (rex : RegexEngine) (text : Str) (searchTerms : List Str) :
    Except Unit ℚ :=
  if text.isEmpty || searchTerms.isEmpty then .ok 0
  else do
    let lowerText := toLowerStr text
    let score ← searchTerms.foldlM (fun acc term => do
      let s ← termScore rex lowerText term
      pure (acc + s)) (0 : ℚ)
    pure (min 1 (score / (searchTerms.length : ℚ)))

/-! ### `formatSearchQuery` (`src/utils/search.ts`) -/

/-- Accumulator scan behind `wsTokens`: `cur` holds the current run of
non-whitespace characters in reverse. -/
def wsTokensAux : Str → Str → List Str
  | cur, [] => if cur.isEmpty then [] else [cur.reverse]
  | cur, c :: rest =>
    if isWs c then
      if cur.isEmpty then wsTokensAux [] rest
      else cur.reverse :: wsTokensAux [] rest
    else wsTokensAux (c :: cur) rest

/-- Embeds `query.trim().split(/\s+/).filter(Boolean)`: the maximal runs of
non-whitespace characters. -/
def wsTokens (s : Str) : List Str := wsTokensAux [] s

/-- The characters escaped by `term.replace(/[&|!():*]/g, '\\$&')`. -/
def isEscapedChar (c : Char) : Bool :=
  c == '&' || c == '|' || c == '!' || c == '(' || c == ')' || c == ':' || c == '*'

/-- Embeds `term.replace(/[&|!():*]/g, '\\$&')`: prefix every occurrence of an
operator character with a backslash. -/
def escTerm : Str → Str
  | [] => []
  | c :: rest => if isEscapedChar c then '\\' :: c :: escTerm rest else c :: escTerm rest

/-- Embeds `formatSearchQuery`: empty on blank input; otherwise escape each
whitespace-separated token, append the prefix-match marker `:*`, and join
with the AND operator. -/
def formatSearchQuery (q : Str) : Str :=
  if isBlank q then []
  else List.intercalate [' ', '&', ' '] ((wsTokens q).map (fun t => escTerm t ++ [':', '*']))

/-- The spec's six operator characters `& | ! ( ) :`. -/
def isOperatorChar (c : Char) : Bool :=
  c == '&' || c == '|' || c == '!' || c == '(' || c == ')' || c == ':'

/-- Scan checking that every occurrence of an operator character is
immediately preceded by a backslash (`prev` is the previous character). -/
def escOkAux (prev : Option Char) : Str → Bool
  | [] => true
  | c :: rest => (!isOperatorChar c || prev == some '\\') && escOkAux (some c) rest

/-- Every operator character in the string is prefixed with the escape
marker `\`. -/
def escOk (s : Str) : Bool := escOkAux none s

/-! ### `PostgresSearchService.searchArticles` (empty-query guard) -/

/-- The tsquery string `searchArticles` builds inline (no escaping):
trim, split on whitespace, append `:*`, join with `&`. -/
def tsQueryOf (q : Str) : Str :=
  List.intercalate [' ', '&', ' '] ((wsTokens q).map (fun t => t ++ [':', '*']))

/-- Embeds `PostgresSearchService.searchArticles`, abstracted over the store
(`exec` stands for `pool.query` on the built SQL): the query text is
rejected before any store access when blank. -/
def searchArticles (q : Str) (exec : Str → List ArticleRow) :
    Except SvcError (List ArticleRow) :=
  if isBlank q then .error .emptyQuery
  else .ok (exec (tsQueryOf q))

/-! ### Transactional session model (`ArticleRepository` create/update/delete)

All three mutating methods share the pattern
`try { BEGIN; ...; COMMIT } catch { ROLLBACK; throw } finally { release }`
on a pooled client.  A session records the committed database state, the
open-transaction buffer, and the observable lifecycle facts the claims are
about (rollback issued, client released, transaction open). -/

structure Session where
  committed : DBState
  buffer : DBState
  txnOpen : Bool
  released : Bool
  rollbackCount : Nat

/-- A fresh pooled client over committed state `db`. -/
def freshSession (db : DBState) : Session :=
  { committed := db, buffer := db, txnOpen := false, released := false, rollbackCount := 0 }

/-- Embeds `client.query('BEGIN')`: open a transaction whose buffer starts from the
committed state. -/
def qBegin (s : Session) : Session :=
  { s with txnOpen := true, buffer := s.committed }

/-- Embeds `client.query('COMMIT')`: persist the buffer. -/
def qCommit (s : Session) : Session :=
  { s with txnOpen := false, committed := if s.txnOpen then s.buffer else s.committed }

/-- Embeds `client.query('ROLLBACK')`: discard the buffer. -/
def qRollback (s : Session) : Session :=
  { s with txnOpen := false, buffer := s.committed, rollbackCount := s.rollbackCount + 1 }

/-- Embeds `client.release()`. -/
def qRelease (s : Session) : Session :=
  { s with released := true }

/-- A data-modifying statement: applied to the transaction buffer while a
transaction is open (autocommitted otherwise). -/
def qRun (f : DBState → DBState) (s : Session) : Session :=
  if s.txnOpen then { s with buffer := f s.buffer }
  else { s with committed := f s.committed }

/-- Run the numbered queries of the try-block in order; the oracle decides
whether the query executor raises at a given index (a raising query has no
effect).  Returns the session, the raised error if any, and the index
reached. -/
def execQueries (oracle : Nat → Option Nat) :
    List (Session → Session) → Nat → Session → Session × Option Nat × Nat
  | [], i, s => (s, none, i)
  | q :: qs, i, s =>
    match oracle i with
    | some e => (s, some e, i)
    | none => execQueries oracle qs (i + 1) (q s)

/-- The try-block of a mutating repository method: `BEGIN`, the method's
statements, `COMMIT`. -/
def mkBody (stmts : List (DBState → DBState)) : List (Session → Session) :=
  qBegin :: (stmts.map qRun ++ [qCommit])

/-- The shared `try/catch/finally` pattern of `ArticleRepository.create`,
`.update` and `.delete`: run the body; on an executor error, `ROLLBACK` and
re-raise that same error; release the client on every exit path. -/
def withClientTxn (stmts : List (DBState → DBState)) (oracle : Nat → Option Nat)
    (db : DBState) : Except Nat DBState × Session :=
  let (s1, raised, _) := execQueries oracle (mkBody stmts) 0 (freshSession db)
  match raised with
  | none => (.ok s1.committed, qRelease s1)
  | some e => (.error e, qRelease (qRollback s1))

/-- The executor oracle that raises error `e` at query index `k` and
succeeds everywhere else. -/
def failOracle (k e : Nat) : Nat → Option Nat :=
  fun i => if i == k then some e else none

/-- The failure postcondition of C3 for a transactional repository method:
the same executor error is re-raised, the committed state is unchanged, the
transaction is closed, the client was released, and exactly one `ROLLBACK`
was issued. -/
def failPost (r : Except Nat DBState × Session) (e : Nat) (db : DBState) : Prop :=
  r.1 = .error e ∧ r.2.committed = db ∧ r.2.txnOpen = false
    ∧ r.2.released = true ∧ r.2.rollbackCount = 1

/-! ### Association-mutation operations for the usage-count invariant

The code paths that mutate `article_tags` rows: bulk insert on create,
delete-then-insert replace on update/saveDraft, and delete-all on article
delete.  A bulk insert that would violate the `(article_id, tag_id)` primary
key fails and its transaction is rolled back, leaving the state unchanged. -/

/-- The primary key admits the bulk insert: the inserted tag ids are distinct
and none of the pairs already exists. -/
def insertOkB (db : DBState) (aid : Ident) (tids : List Ident) : Bool :=
  tids.all (fun t => !(db.articleTags.contains (aid, t))) && decide tids.Nodup

inductive AssocOp
  | createTags (aid : Ident) (tids : List Ident)
  | replaceTags (aid : Ident) (tids : List Ident)
  | deleteArticle (aid : Ident)

/-- Effect of one association mutation on the persisted state (a primary-key
violation rolls the transaction back, leaving the state unchanged). -/
def applyAssocOp (db : DBState) : AssocOp → DBState
  | .createTags aid tids =>
    if insertOkB db aid tids then insertArticleTags db aid tids else db
  | .replaceTags aid tids =>
    let db1 := deleteArticleTags db aid
    if insertOkB db1 aid tids then insertArticleTags db1 aid tids else db
  | .deleteArticle aid => deleteArticleTags db aid

def applyAssocOps (db : DBState) (ops : List AssocOp) : DBState :=
  ops.foldl applyAssocOp db

/-- The number of live `article_tags` rows referencing tag `tid`. -/
def liveCount (db : DBState) (tid : Ident) : Nat :=
  (db.articleTags.filter (fun p => p.2 == tid)).length

/-- The §3 invariant: every tag's `usageCount` equals the live count of
article-tag associations referencing it. -/
def usageInv (db : DBState) : Bool :=
  db.tags.all (fun t => t.usageCount == (liveCount db t.id : Int))

/-! ### Concrete sample data used by the witness theorems -/

def exRow1 : ArticleRow :=
  { id := 1, title := ['t'], content := ['c'], excerpt := [], authorId := 9
    status := .published, createdAt := 0, updatedAt := 0, publishedAt := some 5 }

def exRow2 : ArticleRow :=
  { id := 2, title := ['t'], content := ['c'], excerpt := [], authorId := 9
    status := .published, createdAt := 0, updatedAt := 0, publishedAt := some 7 }

def exRow3 : ArticleRow :=
  { id := 3, title := ['t'], content := ['c'], excerpt := [], authorId := 9
    status := .published, createdAt := 0, updatedAt := 0, publishedAt := some 9 }

def exRow4 : ArticleRow :=
  { id := 4, title := ['t'], content := ['c'], excerpt := [], authorId := 9
    status := .draft, createdAt := 0, updatedAt := 0, publishedAt := none }

/-- A sample database: three published articles sharing categories/tags, one
draft, and two tags whose usage counts match their live association rows. -/
def exDB : DBState :=
  { articles := [exRow1, exRow2, exRow3, exRow4]
    articleCats := [(1, 100), (2, 100)]
    articleTags := [(1, 200), (1, 201), (2, 200), (3, 200), (3, 201)]
    tags := [⟨200, 3⟩, ⟨201, 2⟩] }

/-- A sample create request. -/
def exCreateReq : CreateArticleRequest := { title := ['a'], content := ['b'] }

/-- A sample draft patch requesting a non-draft status and blank fields. -/
def exDraftReq : UpdateArticleRequest :=
  { title := some [], content := some [], status := some .published }

/-! ## Helper lemmas about the repository update path -/

theorem applyRowUpdate_id (now : Time) (u : UpdateArticleRequest) (r : ArticleRow) :
    (applyRowUpdate now u r).id = r.id := rfl

theorem deleteArticleCats_articles (db : DBState) (aid : Ident) :
    (deleteArticleCats db aid).articles = db.articles := rfl

theorem insertArticleCats_articles (db : DBState) (aid : Ident) (cids : List Ident) :
    (insertArticleCats db aid cids).articles = db.articles := rfl

theorem deleteArticleTags_articles (db : DBState) (aid : Ident) :
    (deleteArticleTags db aid).articles = db.articles := rfl

theorem insertArticleTag_articles (db : DBState) (aid tid : Ident) :
    (insertArticleTag db aid tid).articles = db.articles := rfl

theorem insertArticleTags_articles (tids : List Ident) (db : DBState) (aid : Ident) :
    (insertArticleTags db aid tids).articles = db.articles := by
  induction tids generalizing db with
  | nil => rfl
  | cons t ts ih =>
    show (insertArticleTags (insertArticleTag db aid t) aid ts).articles = db.articles
    rw [ih]
    rfl

theorem updateAssocStmts_articles (id : Ident) (u : UpdateArticleRequest) (d0 : DBState) :
    ((updateAssocStmts id u).foldl (fun s f => f s) d0).articles = d0.articles := by
  unfold updateAssocStmts
  cases hc : u.categoryIds with
  | none =>
    cases ht : u.tagIds with
    | none => rfl
    | some tids =>
      by_cases h : tids.isEmpty <;>
        simp [h, deleteArticleTags_articles, insertArticleTags_articles]
  | some cids =>
    cases ht : u.tagIds with
    | none =>
      by_cases h : cids.isEmpty <;>
        simp [h, deleteArticleCats_articles, insertArticleCats_articles]
    | some tids =>
      by_cases h1 : cids.isEmpty <;> by_cases h2 : tids.isEmpty <;>
        simp [h1, h2, deleteArticleCats_articles, insertArticleCats_articles,
          deleteArticleTags_articles, insertArticleTags_articles]

theorem findRow_ext {db1 db2 : DBState} (h : db1.articles = db2.articles) (id : Ident) :
    findRow db1 id = findRow db2 id := by
  unfold findRow; rw [h]

theorem rowUpdateStmt_findRow (now : Time) (id : Ident) (u : UpdateArticleRequest) (db : DBState) :
    findRow (rowUpdateStmt now id u db) id = (findRow db id).map (applyRowUpdate now u) := by
  simp only [findRow, rowUpdateStmt]
  rw [List.find?_map]
  have hp : ((fun (r : ArticleRow) => r.id == id) ∘
      fun r => if r.id == id then applyRowUpdate now u r else r) = fun r => r.id == id := by
    funext r
    by_cases h : r.id = id
    · simp [h, applyRowUpdate_id]
    · simp [h]
  rw [hp]
  cases hf : db.articles.find? (fun r => r.id == id) with
  | none => rfl
  | some r =>
    have hr : r.id = id := by simpa using List.find?_some hf
    simp [hr]

theorem repoUpdate_findRow (now : Time) (id : Ident) (u : UpdateArticleRequest) (db : DBState) :
    findRow (repoUpdate now id u db).1 id =
      (if anyRowField u then (findRow db id).map (applyRowUpdate now u) else findRow db id) := by
  have h1 : findRow (repoUpdate now id u db).1 id =
      findRow ((if anyRowField u then [rowUpdateStmt now id u] else []).foldl
        (fun s f => f s) db) id := by
    refine findRow_ext ?_ id
    show ((updateStmts now id u).foldl (fun s f => f s) db).articles = _
    rw [updateStmts, List.foldl_append]
    exact updateAssocStmts_articles id u _
  rw [h1]
  by_cases h : anyRowField u
  · simp only [h, if_true, List.foldl_cons, List.foldl_nil]
    exact rowUpdateStmt_findRow now id u db
  · simp [h]

theorem repoUpdate_snd (now : Time) (id : Ident) (u : UpdateArticleRequest) (db : DBState) :
    (repoUpdate now id u db).2 =
      (findRow (repoUpdate now id u db).1 id).map (hydrate (repoUpdate now id u db).1) := rfl

/-! ## Claim theorems -/

/-- Claim C9: for every query string that is empty or whitespace-only,
`searchArticles` raises the empty-query error without executing any search
against the store (the result does not depend on the store at all). -/
theorem c9_search_rejects_blank (q : Str) (exec exec2 : Str → List ArticleRow)
    (h : isBlank q = true) :
    searchArticles q exec = .error .emptyQuery ∧
      searchArticles q exec = searchArticles q exec2 := by
  constructor <;> simp [searchArticles, h]

theorem c9_search_rejects_blank_witness :
    searchArticles [' ', ' '] (fun _ => []) = .error .emptyQuery :=
  (c9_search_rejects_blank [' ', ' '] (fun _ => []) (fun _ => [exRow1]) (by decide)).1

/-- Claim C10: when the source article id does not resolve, or resolves to a
non-`published` article, `findRelatedArticles` returns the empty list (it
cannot raise, and it does not fall back to recent articles). -/
theorem c10_findRelated_empty (db : DBState) (id : Ident) (limit : Nat) :
    (findById db id = none → findRelatedArticles db id limit = [])
    ∧ (∀ a, findById db id = some a → a.status ≠ .published →
        findRelatedArticles db id limit = []) := by
  constructor
  · intro h
    simp [findRelatedArticles, h]
  · intro a ha hs
    simp [findRelatedArticles, ha, hs]

theorem c10_findRelated_empty_witness :
    findRelatedArticles exDB 99 5 = [] ∧ findRelatedArticles exDB 4 5 = [] :=
  ⟨(c10_findRelated_empty exDB 99 5).1 (by decide),
   (c10_findRelated_empty exDB 4 5).2 (hydrate exDB exRow4) (by decide) (by decide)⟩

/-- Claim C4 counterexample: on a published article with `publishedAt = 5`,
`unpublish` succeeds, sets status to `draft`, and *retains* `publishedAt`
(the claim says it is always cleared). -/
theorem c4_counterexample :
    (unpublish 10 exDB 1).toOption.map (fun p => (p.2.status, p.2.publishedAt))
      = some (.draft, some 5) := by decide

/-- Claim C4 amended: a successful `unpublish` of a published article sets
status to `draft` and leaves `publishedAt` unchanged — the service passes no
`clearPublishedAt` flag, so the repository retains the stored value. -/
theorem c4_unpublish_retains (now : Time) (db : DBState) (id : Ident) (a : Article)
    (ha : findById db id = some a) (hs : a.status = .published) :
    (unpublish now db id).toOption.map (fun p => (p.2.status, p.2.publishedAt))
      = some (.draft, a.publishedAt) := by
  rw [findById] at ha
  obtain ⟨r, hr, hra⟩ := Option.map_eq_some'.mp ha
  have h2 : (repoUpdate now id { status := some .draft } db).2 =
      some (hydrate (repoUpdate now id { status := some .draft } db).1
        (applyRowUpdate now { status := some .draft } r)) := by
    rw [repoUpdate_snd, repoUpdate_findRow]
    have hany : anyRowField { status := some .draft } = true := rfl
    rw [hany, if_pos rfl, hr]
    rfl
  simp only [unpublish, findById, hr, Option.map_some', hra, hs, ne_eq, not_true_eq_false,
    if_false, h2]
  subst hra
  rfl

theorem c4_unpublish_retains_witness :
    (unpublish 11 exDB 1).toOption.map (fun p => (p.2.status, p.2.publishedAt))
      = some (.draft, some 5) :=
  c4_unpublish_retains 11 exDB 1 (hydrate exDB exRow1) (by decide) (by decide)

/-- Claim C8: `saveDraft` forces the resulting status to `draft` even when the
patch requests another status, and accepts empty titles and contents (only
oversized fields are rejected); a supplied title is stored as given. -/
theorem c8_saveDraft_forces_draft (now : Time) (db : DBState) (id : Ident)
    (u : UpdateArticleRequest) (a : Article) (ha : findById db id = some a)
    (ht : ∀ t, u.title = some t → t.length ≤ 1000)
    (hc : ∀ c, u.content = some c → c.length ≤ 100000) :
    ((saveDraft now db id u).toOption.map (fun p => p.2.status) = some .draft)
    ∧ (∀ t, u.title = some t →
        (saveDraft now db id u).toOption.map (fun p => p.2.title) = some t) := by
  rw [findById] at ha
  obtain ⟨r, hr, hra⟩ := Option.map_eq_some'.mp ha
  have hg1 : (match ({ u with status := some .draft } : UpdateArticleRequest).title with
      | some t => decide (1000 < t.length) | none => false) = false := by
    cases hu : u.title with
    | none => simp [hu]
    | some t =>
      simp only [hu]
      exact decide_eq_false (Nat.not_lt.mpr (ht t hu))
  have hg2 : (match ({ u with status := some .draft } : UpdateArticleRequest).content with
      | some c => decide (100000 < c.length) | none => false) = false := by
    cases hu : u.content with
    | none => simp [hu]
    | some c =>
      simp only [hu]
      exact decide_eq_false (Nat.not_lt.mpr (hc c hu))
  have hany : anyRowField { u with status := some .draft } = true := by
    simp [anyRowField]
  have h2 : (repoUpdate now id { u with status := some .draft } db).2 =
      some (hydrate (repoUpdate now id { u with status := some .draft } db).1
        (applyRowUpdate now { u with status := some .draft } r)) := by
    rw [repoUpdate_snd, repoUpdate_findRow, hany, if_pos rfl, hr]
    rfl
  constructor
  · simp only [saveDraft, findById, hr, Option.map_some', hg1, Bool.false_eq_true, if_false,
      hg2, h2]
    rfl
  · intro t hu
    simp only [saveDraft, findById, hr, Option.map_some', hg1, Bool.false_eq_true, if_false,
      hg2, h2]
    simp [hydrate, applyRowUpdate, hu]
    exact ⟨_, _, rfl, rfl⟩

/-- Claim C1: for an existing article, `publish` fails with the Conflict-kind
`alreadyPublished` error when the status is already `published`; fails with a
ValidationFailed-kind error when the stored title or content is blank;
otherwise it succeeds, sets status to `published`, and sets `publishedAt` to
`now` only if it was previously unset (an already-set value is kept). -/
theorem c1_publish_spec (now : Time) (db : DBState) (id : Ident) (a : Article)
    (ha : findById db id = some a) :
    (a.status = .published →
      publish now db id = .error .alreadyPublished
        ∧ SvcError.alreadyPublished.kind = .conflict)
    ∧ (a.status ≠ .published → (isBlank a.title = true ∨ isBlank a.content = true) →
      ∃ e, publish now db id = .error e ∧ e.kind = .validationFailed)
    ∧ (a.status ≠ .published → isBlank a.title = false → isBlank a.content = false →
      (publish now db id).toOption.map (fun p => (p.2.status, p.2.publishedAt))
        = some (.published, some (a.publishedAt.getD now))) := by
  rw [findById] at ha
  obtain ⟨r, hr, hra⟩ := Option.map_eq_some'.mp ha
  subst hra
  refine ⟨?_, ?_, ?_⟩
  · intro hs
    exact ⟨by simp [publish, findById, hr, Option.map_some', hs], rfl⟩
  · intro hs hval
    by_cases hbt : isBlank (hydrate db r).title = true
    · exact ⟨.publishNoTitle,
        by simp [publish, findById, hr, Option.map_some', hs, hbt], rfl⟩
    · have hbc : isBlank (hydrate db r).content = true := by
        rcases hval with h | h
        · exact absurd h hbt
        · exact h
      exact ⟨.publishNoContent,
        by simp [publish, findById, hr, Option.map_some', hs, hbt, hbc], rfl⟩
  · intro hs hbt hbc
    have h2 : (repoUpdate now id { status := some .published } db).2 =
        some (hydrate (repoUpdate now id { status := some .published } db).1
          (applyRowUpdate now { status := some .published } r)) := by
      rw [repoUpdate_snd, repoUpdate_findRow]
      have hany : anyRowField { status := some .published } = true := rfl
      rw [hany, if_pos rfl, hr]
      rfl
    simp only [publish, findById, hr, Option.map_some', hs, hbt, hbc, h2,
      Bool.false_eq_true, if_false, ite_false]
    rfl

theorem c1_publish_spec_witness :
    (publish 10 exDB 4).toOption.map (fun p => (p.2.status, p.2.publishedAt))
      = some (.published, some 10) :=
  (c1_publish_spec 10 exDB 4 (hydrate exDB exRow4) (by decide)).2.2
    (by decide) (by decide) (by decide)

theorem c8_saveDraft_forces_draft_witness :
    ((saveDraft 10 exDB 1 exDraftReq).toOption.map (fun p => p.2.status) = some .draft)
    ∧ ((saveDraft 10 exDB 1 exDraftReq).toOption.map (fun p => p.2.title) = some []) := by
  have h := c8_saveDraft_forces_draft 10 exDB 1 exDraftReq (hydrate exDB exRow1) (by decide)
    (by intro t htt; cases htt; decide) (by intro c hcc; cases hcc; decide)
  exact ⟨h.1, h.2 [] rfl⟩

/-! ## C7: query normalization -/

theorem isOperatorChar_isEscapedChar (c : Char) (h : isOperatorChar c = true) :
    isEscapedChar c = true := by
  simp only [isOperatorChar, Bool.or_eq_true, beq_iff_eq] at h
  simp only [isEscapedChar, Bool.or_eq_true, beq_iff_eq]
  tauto

theorem escOkAux_escTerm (t : Str) : ∀ prev, escOkAux prev (escTerm t) = true := by
  induction t with
  | nil => intro prev; rfl
  | cons c rest ih =>
    intro prev
    by_cases h : isEscapedChar c = true
    · show escOkAux prev (if isEscapedChar c then '\\' :: c :: escTerm rest
        else c :: escTerm rest) = true
      rw [if_pos h]
      simp only [escOkAux, Bool.and_eq_true]
      exact ⟨by simp [isOperatorChar], by simp, ih (some c)⟩
    · show escOkAux prev (if isEscapedChar c then '\\' :: c :: escTerm rest
        else c :: escTerm rest) = true
      rw [if_neg h]
      simp only [escOkAux, Bool.and_eq_true]
      refine ⟨?_, ih (some c)⟩
      have hoc : isOperatorChar c = false := by
        cases hx : isOperatorChar c
        · rfl
        · exact absurd (isOperatorChar_isEscapedChar c hx) h
      simp [hoc]

theorem flushed_token_ok (cur : Str) (hcur : ∀ c ∈ cur, isWs c = false)
    (hc : ¬cur.isEmpty = true) :
    cur.reverse ≠ [] ∧ (cur.reverse).all (fun c => !isWs c) = true := by
  constructor
  · intro hnil
    exact hc (by simp [List.isEmpty_iff, ← List.reverse_eq_nil_iff, hnil])
  · rw [List.all_eq_true]
    intro x hx
    rw [List.mem_reverse] at hx
    simp [hcur x hx]

theorem wsTokensAux_mem (s : Str) :
    ∀ cur : Str, (∀ c ∈ cur, isWs c = false) →
      ∀ t ∈ wsTokensAux cur s, t ≠ [] ∧ t.all (fun c => !isWs c) = true := by
  induction s with
  | nil =>
    intro cur hcur t ht
    by_cases hc : cur.isEmpty
    · simp [wsTokensAux, hc] at ht
    · rw [wsTokensAux, if_neg hc] at ht
      rw [List.mem_singleton.mp ht]
      exact flushed_token_ok cur hcur hc
  | cons c rest ih =>
    intro cur hcur t ht
    by_cases hwc : isWs c
    · by_cases hc : cur.isEmpty
      · rw [wsTokensAux, if_pos hwc, if_pos hc] at ht
        exact ih [] (by simp) t ht
      · rw [wsTokensAux, if_pos hwc, if_neg hc] at ht
        rcases List.mem_cons.mp ht with heq | hm
        · rw [heq]
          exact flushed_token_ok cur hcur hc
        · exact ih [] (by simp) t hm
    · rw [wsTokensAux, if_neg hwc] at ht
      refine ih (c :: cur) ?_ t ht
      intro x hx
      rcases List.mem_cons.mp hx with heq | hx
      · rw [heq]
        simpa using hwc
      · exact hcur x hx

theorem wsTokens_mem (q : Str) :
    ∀ t ∈ wsTokens q, t ≠ [] ∧ t.all (fun c => !isWs c) = true :=
  wsTokensAux_mem q [] (by simp)

/-- Claim C7: `formatSearchQuery` normalizes an empty or whitespace-only query
to the empty expression; otherwise it splits on whitespace into non-empty
whitespace-free tokens, escapes each token's operator characters
`& | ! ( ) :` by prefixing a backslash, appends the prefix-match marker
`:*` to every term, and joins the terms with the AND operator ` & `. -/
theorem c7_normalize_query :
    (∀ q : Str, isBlank q = true → formatSearchQuery q = [])
    ∧ (∀ q : Str, isBlank q = false →
        formatSearchQuery q =
          List.intercalate [' ', '&', ' ']
            ((wsTokens q).map (fun t => escTerm t ++ [':', '*'])))
    ∧ (∀ q : Str, ∀ t ∈ wsTokens q, t ≠ [] ∧ t.all (fun c => !isWs c) = true)
    ∧ (∀ t : Str, escOk (escTerm t) = true) := by
  refine ⟨?_, ?_, ?_, ?_⟩
  · intro q h
    simp [formatSearchQuery, h]
  · intro q h
    simp [formatSearchQuery, h]
  · exact wsTokens_mem
  · intro t
    exact escOkAux_escTerm t none

theorem c7_normalize_query_witness :
    (formatSearchQuery [' ', ' '] = [])
    ∧ (formatSearchQuery ['a', ' ', 'b'] =
        List.intercalate [' ', '&', ' ']
          ((wsTokens ['a', ' ', 'b']).map (fun t => escTerm t ++ [':', '*'])))
    ∧ (['a'] ≠ [] ∧ (['a'] : Str).all (fun c => !isWs c) = true)
    ∧ escOk (escTerm ['&']) = true :=
  ⟨c7_normalize_query.1 [' ', ' '] (by decide),
   c7_normalize_query.2.1 ['a', ' ', 'b'] (by decide),
   c7_normalize_query.2.2.1 ['a', ' ', 'b'] ['a'] (by decide),
   c7_normalize_query.2.2.2 ['&']⟩

/-! ## C6: the store-independent relevance heuristic -/

/-- Claim C6 is a code bug: on `calculateRelevance("(", ["("])` the term is
found in the text, so the source interpolates it unescaped into
`new RegExp('\b(\b', 'i')`; with any regex engine that faults on that
pattern — JavaScript's throws `SyntaxError` for it — the call propagates
the exception instead of returning a score, contradicting the claimed
`[0, 1]` result for every input (and the function's own documentation). -/
theorem c6_regex_injection (rex : RegexEngine)
    (hfault : rex (boundaryPattern (toLowerStr ['('])) (toLowerStr ['(']) = .error ()) :
    calculateRelevance rex ['('] [['(']] = .error () := by
  have h1 : firstIdx (toLowerStr ['(']) (toLowerStr ['(']) = some 0 := rfl
  simp [calculateRelevance, termScore, h1, hfault]

theorem c6_regex_injection_witness :
    calculateRelevance (fun _ _ => .error ()) ['('] [['(']] = .error () :=
  c6_regex_injection (fun _ _ => .error ()) rfl

/-! ## C5: related-article matching -/

theorem lex3LE_total (a b : Nat × Nat × Nat) : lex3LE a b = true ∨ lex3LE b a = true := by
  obtain ⟨a1, a2, a3⟩ := a
  obtain ⟨b1, b2, b3⟩ := b
  simp only [lex3LE, Bool.or_eq_true, Bool.and_eq_true, decide_eq_true_eq, beq_iff_eq]
  omega

theorem lex3LE_trans (a b c : Nat × Nat × Nat) (hab : lex3LE a b = true)
    (hbc : lex3LE b c = true) : lex3LE a c = true := by
  obtain ⟨a1, a2, a3⟩ := a
  obtain ⟨b1, b2, b3⟩ := b
  obtain ⟨c1, c2, c3⟩ := c
  simp only [lex3LE, Bool.or_eq_true, Bool.and_eq_true, decide_eq_true_eq, beq_iff_eq] at *
  omega

/-- Claim C5: for a published source article with at least one category or
tag, `findRelatedArticles` never returns the source itself, returns only
published articles, returns only articles with a strictly positive match
score, caps the result at `limit`, and returns it sorted by descending
match score with ties broken by descending publish time (the `relOrder`
relation). -/
theorem c5_find_related (db : DBState) (id : Ident) (limit : Nat) (a : Article)
    (ha : findById db id = some a) (hs : a.status = .published)
    (hne : (a.categoryIds.isEmpty && a.tagIds.isEmpty) = false) :
    (∀ b ∈ findRelatedArticles db id limit, b.id ≠ id)
    ∧ (∀ b ∈ findRelatedArticles db id limit, b.status = .published)
    ∧ (∀ b ∈ findRelatedArticles db id limit,
        0 < matchScore db a.categoryIds a.tagIds b.id)
    ∧ (findRelatedArticles db id limit).length ≤ limit
    ∧ List.Pairwise
        (fun x y => relOrder db a.categoryIds a.tagIds x.toArticleRow y.toArticleRow)
        (findRelatedArticles db id limit) := by
  have hres : findRelatedArticles db id limit =
      ((((db.articles.filter (fun r => r.status == .published && r.id != id)).filter
          (fun r => decide (0 < matchScore db a.categoryIds a.tagIds r.id))).insertionSort
            (relOrder db a.categoryIds a.tagIds)).take limit).map (hydrate db) := by
    simp only [findRelatedArticles, ha]
    rw [if_neg (fun h => h hs)]
    simp only [hne, Bool.false_eq_true, if_false]
  have hmem : ∀ b ∈ findRelatedArticles db id limit,
      ∃ r, b = hydrate db r ∧ r ∈ db.articles
        ∧ (r.status == .published && r.id != id) = true
        ∧ 0 < matchScore db a.categoryIds a.tagIds r.id := by
    intro b hb
    rw [hres] at hb
    obtain ⟨r, hrt, hrb⟩ := List.mem_map.mp hb
    have hr1 := List.mem_of_mem_take hrt
    rw [List.mem_insertionSort] at hr1
    have hr2 := List.mem_filter.mp hr1
    have hr3 := List.mem_filter.mp hr2.1
    exact ⟨r, hrb.symm, hr3.1, hr3.2, of_decide_eq_true hr2.2⟩
  refine ⟨?_, ?_, ?_, ?_, ?_⟩
  · intro b hb
    obtain ⟨r, hbr, _, hflt, _⟩ := hmem b hb
    have := (Bool.and_eq_true _ _ |>.mp hflt).2
    rw [hbr]
    simpa using this
  · intro b hb
    obtain ⟨r, hbr, _, hflt, _⟩ := hmem b hb
    have := (Bool.and_eq_true _ _ |>.mp hflt).1
    rw [hbr]
    simpa using this
  · intro b hb
    obtain ⟨r, hbr, _, _, hsc⟩ := hmem b hb
    rw [hbr]
    exact hsc
  · rw [hres, List.length_map, List.length_take]
    exact min_le_left _ _
  · rw [hres]
    rw [List.pairwise_map]
    have hsorted : List.Sorted (relOrder db a.categoryIds a.tagIds)
        (((db.articles.filter (fun r => r.status == .published && r.id != id)).filter
          (fun r => decide (0 < matchScore db a.categoryIds a.tagIds r.id))).insertionSort
            (relOrder db a.categoryIds a.tagIds)) := by
      haveI : IsTotal ArticleRow (relOrder db a.categoryIds a.tagIds) :=
        ⟨fun x y => lex3LE_total _ _⟩
      haveI : IsTrans ArticleRow (relOrder db a.categoryIds a.tagIds) :=
        ⟨fun x y z hxy hyz => lex3LE_trans _ _ _ hyz hxy⟩
      exact List.sorted_insertionSort _ _
    exact List.Pairwise.sublist (List.take_sublist limit _) hsorted

theorem c5_find_related_witness :
    (findRelatedArticles exDB 1 2).length ≤ 2 :=
  (c5_find_related exDB 1 2 (hydrate exDB exRow1) (by decide) (by decide) (by decide)).2.2.2.1

/-! ## C2: the tag usage-count invariant -/

theorem bumpUsage_mem (ts : List TagRow) (tid : Ident) (d : Int) (t' : TagRow)
    (h : t' ∈ bumpUsage ts tid d) :
    ∃ t ∈ ts, t'.id = t.id ∧
      t'.usageCount = t.usageCount + (if t.id = tid then d else 0) := by
  obtain ⟨t, hts, hft⟩ := List.mem_map.mp h
  subst hft
  by_cases hid : t.id = tid
  · refine ⟨t, hts, ?_, ?_⟩ <;> simp [hid]
  · refine ⟨t, hts, ?_, ?_⟩ <;> simp [hid]

theorem foldl_bump_mem (rem : List (Ident × Ident)) :
    ∀ (ts : List TagRow) (t' : TagRow),
      t' ∈ rem.foldl (fun acc p => bumpUsage acc p.2 (-1)) ts →
      ∃ t ∈ ts, t'.id = t.id ∧
        t'.usageCount = t.usageCount - (rem.countP (fun p => p.2 == t.id) : Int) := by
  induction rem with
  | nil =>
    intro ts t' h
    exact ⟨t', h, rfl, by simp⟩
  | cons p rem ih =>
    intro ts t' h
    obtain ⟨t'', ht''mem, hid'', husage''⟩ := ih (bumpUsage ts p.2 (-1)) t' h
    obtain ⟨t, htmem, hid, husage⟩ := bumpUsage_mem ts p.2 (-1) t'' ht''mem
    refine ⟨t, htmem, hid''.trans hid, ?_⟩
    rw [hid] at husage''
    rw [husage'', husage, List.countP_cons]
    by_cases hpt : t.id = p.2
    · have hbeq : (p.2 == t.id) = true := by simp [hpt]
      simp only [hbeq, if_pos hpt, if_true]
      push_cast
      omega
    · have hbeq : (p.2 == t.id) = false := by
        simp only [beq_eq_false_iff_ne, ne_eq]
        exact fun he => hpt he.symm
      simp only [hbeq, if_neg hpt, if_false, Bool.false_eq_true]
      push_cast
      omega

theorem countP_filter_split (l : List (Ident × Ident)) (q r : Ident × Ident → Bool) :
    l.countP q = (l.filter r).countP q + (l.filter (fun x => !r x)).countP q := by
  induction l with
  | nil => rfl
  | cons x xs ih =>
    by_cases hr : r x = true <;> by_cases hq : q x = true <;>
      simp [List.countP_cons, List.filter_cons, hr, hq, ih] <;> omega

theorem liveCount_eq_countP (db : DBState) (tid : Ident) :
    liveCount db tid = db.articleTags.countP (fun p => p.2 == tid) := by
  rw [liveCount, ← List.countP_eq_length_filter]

theorem usageInv_deleteArticleTags (db : DBState) (aid : Ident)
    (h : usageInv db = true) : usageInv (deleteArticleTags db aid) = true := by
  rw [usageInv, List.all_eq_true] at *
  intro t' ht'
  have ht'' : t' ∈ (db.articleTags.filter (fun p => p.1 == aid)).foldl
      (fun ts p => bumpUsage ts p.2 (-1)) db.tags := ht'
  obtain ⟨t, htmem, hid, husage⟩ := foldl_bump_mem _ _ _ ht''
  have hinv := h t htmem
  rw [beq_iff_eq] at hinv ⊢
  rw [hid, husage, hinv]
  have htotal := countP_filter_split db.articleTags (fun p => p.2 == t.id)
    (fun p => p.1 == aid)
  have hlive : liveCount (deleteArticleTags db aid) t.id =
      (db.articleTags.filter (fun x => !(x.1 == aid))).countP (fun p => p.2 == t.id) := by
    rw [liveCount_eq_countP]
    rfl
  rw [liveCount_eq_countP, hlive]
  omega

theorem usageInv_insertArticleTag (db : DBState) (aid tid : Ident)
    (h : usageInv db = true) : usageInv (insertArticleTag db aid tid) = true := by
  rw [usageInv, List.all_eq_true] at *
  intro t' ht'
  obtain ⟨t, htmem, hid, husage⟩ := bumpUsage_mem db.tags tid 1 t' ht'
  have hinv := h t htmem
  rw [beq_iff_eq] at hinv ⊢
  rw [hid, husage, hinv]
  have hlive : liveCount (insertArticleTag db aid tid) t.id =
      liveCount db t.id + (if (tid == t.id) = true then 1 else 0) := by
    rw [liveCount_eq_countP, liveCount_eq_countP]
    show (db.articleTags ++ [(aid, tid)]).countP (fun p => p.2 == t.id) = _
    rw [List.countP_append]
    simp [List.countP_cons]
  rw [hlive]
  by_cases hpt : tid = t.id
  · subst hpt
    simp
  · have h1 : (if t.id = tid then (1 : Int) else 0) = 0 := if_neg (fun he => hpt he.symm)
    have h2 : (if (tid == t.id) = true then 1 else 0) = 0 := by simp [hpt]
    rw [h1, h2]
    simp

theorem usageInv_insertArticleTags (tids : List Ident) :
    ∀ (db : DBState) (aid : Ident), usageInv db = true →
      usageInv (insertArticleTags db aid tids) = true := by
  induction tids with
  | nil => intro db aid h; exact h
  | cons t ts ih =>
    intro db aid h
    show usageInv (insertArticleTags (insertArticleTag db aid t) aid ts) = true
    exact ih _ aid (usageInv_insertArticleTag db aid t h)

theorem usageInv_applyAssocOp (db : DBState) (op : AssocOp)
    (h : usageInv db = true) : usageInv (applyAssocOp db op) = true := by
  cases op with
  | createTags aid tids =>
    rw [applyAssocOp]
    by_cases hk : insertOkB db aid tids = true
    · rw [if_pos hk]
      exact usageInv_insertArticleTags tids db aid h
    · rw [if_neg hk]
      exact h
  | replaceTags aid tids =>
    rw [applyAssocOp]
    by_cases hk : insertOkB (deleteArticleTags db aid) aid tids = true
    · rw [if_pos hk]
      exact usageInv_insertArticleTags tids _ aid (usageInv_deleteArticleTags db aid h)
    · rw [if_neg hk]
      exact h
  | deleteArticle aid =>
    exact usageInv_deleteArticleTags db aid h

/-- Claim C2: the usage-count invariant — every tag's `usageCount` equals the
number of live `article_tags` rows referencing it — is preserved by every
sequence of association mutations (bulk insert on create, delete-then-insert
replace on update/saveDraft, delete-all on article delete), the triggers
adjusting the counter once per inserted or deleted row. -/
theorem c2_usage_count_inv (db : DBState) (ops : List AssocOp)
    (h : usageInv db = true) : usageInv (applyAssocOps db ops) = true := by
  induction ops generalizing db with
  | nil => exact h
  | cons op ops ih =>
    show usageInv (applyAssocOps (applyAssocOp db op) ops) = true
    exact ih _ (usageInv_applyAssocOp db op h)

theorem c2_usage_count_inv_witness :
    usageInv (applyAssocOps exDB
      [.replaceTags 1 [200], .createTags 4 [201], .deleteArticle 3]) = true :=
  c2_usage_count_inv exDB _ (by decide)

/-! ## C3: transactional rollback and release -/

theorem execQueries_fail (k e : Nat) (qs : List (Session → Session)) :
    ∀ (i : Nat) (s : Session), i ≤ k → k < i + qs.length →
      execQueries (failOracle k e) qs i s =
        ((qs.take (k - i)).foldl (fun st f => f st) s, some e, k) := by
  induction qs with
  | nil =>
    intro i s h1 h2
    have : False := by simp at h2; omega
    exact this.elim
  | cons q qs ih =>
    intro i s h1 h2
    rcases Nat.eq_or_lt_of_le h1 with heq | hlt
    · subst heq
      simp [execQueries, failOracle]
    · rw [execQueries]
      have hne : failOracle k e i = none := by
        simp only [failOracle, ite_eq_right_iff]
        intro hik
        exact absurd (by simpa using hik) (Nat.ne_of_lt hlt)
      rw [hne]
      show execQueries (failOracle k e) qs (i + 1) (q s) = _
      rw [ih (i + 1) (q s) hlt (by simp at h2 ⊢; omega)]
      have hki : k - i = (k - (i + 1)) + 1 := by omega
      rw [hki, List.take_succ_cons, List.foldl_cons]

theorem qRun_list_preserve (fs : List (DBState → DBState)) :
    ∀ s : Session, s.txnOpen = true →
      ((fs.map qRun).foldl (fun st f => f st) s).committed = s.committed
      ∧ ((fs.map qRun).foldl (fun st f => f st) s).txnOpen = true
      ∧ ((fs.map qRun).foldl (fun st f => f st) s).released = s.released
      ∧ ((fs.map qRun).foldl (fun st f => f st) s).rollbackCount = s.rollbackCount := by
  induction fs with
  | nil =>
    intro s h
    exact ⟨rfl, h, rfl, rfl⟩
  | cons f fs ih =>
    intro s h
    have hstep : qRun f s = { s with buffer := f s.buffer } := by
      rw [qRun, if_pos h]
    have h2 := ih (qRun f s) (by rw [hstep]; exact h)
    simp only [List.map_cons, List.foldl_cons]
    refine ⟨?_, h2.2.1, ?_, ?_⟩
    · rw [h2.1, hstep]
    · rw [h2.2.2.1, hstep]
    · rw [h2.2.2.2, hstep]

theorem mkBodyTakenState (stmts : List (DBState → DBState)) (db : DBState) (m : Nat)
    (hm : m ≤ stmts.length + 1) :
    (((mkBody stmts).take m).foldl (fun st f => f st) (freshSession db)).committed = db
    ∧ (((mkBody stmts).take m).foldl (fun st f => f st) (freshSession db)).released = false
    ∧ (((mkBody stmts).take m).foldl
        (fun st f => f st) (freshSession db)).rollbackCount = 0 := by
  cases m with
  | zero => exact ⟨rfl, rfl, rfl⟩
  | succ j =>
    have hj : j ≤ stmts.length := by omega
    have hlen : j ≤ (stmts.map qRun).length := by simpa using hj
    have htake : (mkBody stmts).take (j + 1) = qBegin :: (stmts.take j).map qRun := by
      rw [mkBody, List.take_succ_cons]
      congr 1
      rw [List.take_append_eq_append_take, Nat.sub_eq_zero_of_le hlen]
      simp [List.map_take]
    rw [htake, List.foldl_cons]
    have h2 := qRun_list_preserve (stmts.take j) (qBegin (freshSession db)) rfl
    refine ⟨?_, ?_, ?_⟩
    · rw [h2.1]; rfl
    · rw [h2.2.2.1]; rfl
    · rw [h2.2.2.2]; rfl

theorem withClientTxn_fail (stmts : List (DBState → DBState)) (db : DBState) (k e : Nat)
    (hk : k < stmts.length + 2) :
    failPost (withClientTxn stmts (failOracle k e) db) e db := by
  have hlen : (mkBody stmts).length = stmts.length + 2 := by
    simp [mkBody]
  have hexec := execQueries_fail k e (mkBody stmts) 0 (freshSession db) (Nat.zero_le k)
    (by rw [Nat.zero_add, hlen]; exact hk)
  rw [Nat.sub_zero] at hexec
  have hpre := mkBodyTakenState stmts db k (by omega)
  unfold withClientTxn
  rw [hexec]
  refine ⟨rfl, hpre.1, rfl, rfl, ?_⟩
  show (((mkBody stmts).take k).foldl (fun st f => f st) (freshSession db)).rollbackCount + 1 = 1
  rw [hpre.2.2]

/-- Claim C3: for each mutating repository operation (`create`, `update`,
`delete`) and every executor error raised at any query inside the open
transaction (`BEGIN` through `COMMIT`), the operation re-raises that same
error after issuing exactly one `ROLLBACK`, releases the client, leaves the
committed article/association state unchanged, and leaves no transaction
open. -/
theorem c3_txn_rollback (db : DBState) (k e : Nat) (d : CreateArticleRequest)
    (authorId freshId : Ident) (now : Time) (id : Ident) (u : UpdateArticleRequest) :
    (k < (createStmts d authorId freshId now).length + 2 →
      failPost (withClientTxn (createStmts d authorId freshId now) (failOracle k e) db) e db)
    ∧ (k < (updateStmts now id u).length + 2 →
      failPost (withClientTxn (updateStmts now id u) (failOracle k e) db) e db)
    ∧ (k < (deleteStmts id).length + 2 →
      failPost (withClientTxn (deleteStmts id) (failOracle k e) db) e db) :=
  ⟨fun h => withClientTxn_fail _ db k e h,
   fun h => withClientTxn_fail _ db k e h,
   fun h => withClientTxn_fail _ db k e h⟩

theorem c3_txn_rollback_witness :
    failPost (withClientTxn (deleteStmts 1) (failOracle 1 7) exDB) 7 exDB :=
  (c3_txn_rollback exDB 1 7 exCreateReq 9 50 10 1 {}).2.2 (by decide)

end SimpleCMS

